import Mathlib

/-!
Shallow embedding of the Tetris rule engine from `src/main.ts`.

The TypeScript source is a pure state machine: `updateState` folds one
`Action` (a move, a rotation, or a restart) into a `State`.  The only
impurity is `Math.random()` inside `createTetrominos`; it is modelled by
an explicit index `randIndex : Fin 7` into the shape catalog, and the
one random draw performed at module load (for `initialState`) is the
explicit parameter `r0`.  Grid coordinates are `Int` (cube offsets are
negative at spawn); `id`, `score` and `highScore` are `Nat` (the source
only ever increments them from 0).
-/

namespace Tetris

/-- A cube: a relative offset inside a piece's local frame. -/
structure Cube where
  x : Int
  y : Int
deriving DecidableEq, Repr

/-- A tetromino piece: identity, cube offsets, color tag and anchor position. -/
structure Tetrominos where
  id : Nat
  cubes : List Cube
  color : String
  x : Int
  y : Int
deriving DecidableEq, Repr

/-- Game actions: `move dx dy` (player move or timer tick), rotate, restart.
In the source these are classes extending `Action` with `x`/`y` fields;
`RotateAction` and `Restart` both carry `(0, 0)`. -/
inductive Action where
  | move (x : Int) (y : Int)
  | rotate
  | restart
deriving DecidableEq, Repr

/-- The `x` field of the source's `Action` class (0 for rotate/restart). -/
def Action.x : Action → Int
  | .move dx _ => dx
  | .rotate => 0
  | .restart => 0

/-- The `y` field of the source's `Action` class (0 for rotate/restart). -/
def Action.y : Action → Int
  | .move _ dy => dy
  | .rotate => 0
  | .restart => 0

/-- The game state. -/
structure State where
  gameEnd : Bool
  gameBoard : List Tetrominos
  currentTetrominos : Tetrominos
  score : Nat
  highScore : Nat
deriving DecidableEq, Repr

/-- `Constants.GRID_WIDTH`. -/
def GRID_WIDTH : Nat := 10

/-- `Constants.GRID_HEIGHT`. -/
def GRID_HEIGHT : Nat := 20

/-- `X_SPAWN_POINT = GRID_WIDTH / 2`. -/
def X_SPAWN_POINT : Int := (GRID_WIDTH : Int) / 2

/-- The fixed catalog of seven shapes (`defaultTetrominos` in the source),
copied verbatim: same cube offsets, colors, spawn anchor `(5, 0)`, id 1. -/
def defaultTetrominos : List Tetrominos := [
  { id := 1, cubes := [⟨0, 0⟩, ⟨0, -1⟩, ⟨1, -1⟩, ⟨2, -1⟩], color := "green", x := X_SPAWN_POINT, y := 0 },
  { id := 1, cubes := [⟨0, 0⟩, ⟨0, -1⟩, ⟨-1, -1⟩, ⟨-2, -1⟩], color := "white", x := X_SPAWN_POINT, y := 0 },
  { id := 1, cubes := [⟨0, 0⟩, ⟨1, 0⟩, ⟨1, -1⟩, ⟨2, -1⟩], color := "red", x := X_SPAWN_POINT, y := 0 },
  { id := 1, cubes := [⟨0, 0⟩, ⟨-1, 0⟩, ⟨-1, -1⟩, ⟨-2, -1⟩], color := "pink", x := X_SPAWN_POINT, y := 0 },
  { id := 1, cubes := [⟨0, 0⟩, ⟨0, -1⟩, ⟨1, 0⟩, ⟨1, -1⟩], color := "blue", x := X_SPAWN_POINT, y := 0 },
  { id := 1, cubes := [⟨0, 0⟩, ⟨1, 0⟩, ⟨2, 0⟩, ⟨3, 0⟩], color := "yellow", x := X_SPAWN_POINT, y := 0 },
  { id := 1, cubes := [⟨0, 0⟩, ⟨0, -1⟩, ⟨1, -1⟩, ⟨-1, -1⟩], color := "purple", x := X_SPAWN_POINT, y := 0 }]

/-- `createTetrominos(nextId)`: picks `defaultTetrominos[randIndex]` (the
`Math.random()` draw is the explicit `randIndex`) and sets `id := nextId + 1`. -/
def createTetrominos (randIndex : Fin 7) (nextId : Nat) : Tetrominos :=
  { defaultTetrominos.get (Fin.cast rfl randIndex) with id := nextId + 1 }

/-- `initialState`, parametrized by the module-load random draw `r0`:
empty board, piece `createTetrominos(1)`, scores 0. -/
def initialState (r0 : Fin 7) : State :=
  { gameEnd := false
    gameBoard := []
    currentTetrominos := createTetrominos r0 1
    score := 0
    highScore := 0 }

/-- `lowestYCube`: JS `reduce` over `cubes` with the head as seed, keeping the
cube of numerically largest absolute row (strict `>`, so ties keep the earlier
cube).  The source reduce throws on an empty list; `⟨0, 0⟩` stands in for that
unreachable case (the current piece always has four cubes). -/
def lowestYCube (t : Tetrominos) : Cube :=
  match t.cubes with
  | [] => ⟨0, 0⟩
  | c :: rest =>
    rest.foldl (fun minCube currentCube =>
      if currentCube.y + t.y > t.y + minCube.y then currentCube else minCube) c

/-- `isTouchingFloor`: false iff the lowest cube's absolute row is below
`GRID_HEIGHT`. -/
def isTouchingFloor (t : Tetrominos) : Bool :=
  if (lowestYCube t).y + t.y < (GRID_HEIGHT : Int) then false else true

/-- `isInBorder`: every cube is strictly inside the side walls, or sits on a
wall while the movement points away from it. -/
def isInBorder (t : Tetrominos) (movement : Action) : Bool :=
  t.cubes.all fun cube =>
    let cubeX := t.x + cube.x
    (decide (cubeX > 1) && decide (cubeX < (GRID_WIDTH : Int))) ||
    (cubeX == 1 && movement.x == 1) ||
    (cubeX == (GRID_WIDTH : Int) && movement.x == -1)

/-- `isColliding(s, movement, withMovement)`: with `withMovement` the cubes are
offset by the movement and compared against board cubes directly; without it
the cubes stay put and are compared against board cubes one row below
(`stackingOffset = 1`), the lock probe. -/
def isColliding (s : State) (movement : Action) (withMovement : Bool) : Bool :=
  let xMovement := if withMovement then movement.x else 0
  let yMovement := if withMovement then movement.y else 0
  let stackingOffset : Int := if withMovement then 0 else 1
  s.currentTetrominos.cubes.any fun cube =>
    let x := s.currentTetrominos.x + cube.x + xMovement
    let y := s.currentTetrominos.y + cube.y + yMovement
    s.gameBoard.any fun t =>
      t.cubes.any fun boardCube =>
        (t.x + boardCube.x == x) && (t.y + boardCube.y == y + stackingOffset)

/-- `isRowFull`: the number of board cubes with absolute row `rowIndex`
equals `GRID_WIDTH`. -/
def isRowFull (gameBoard : List Tetrominos) (rowIndex : Int) : Bool :=
  let colCount := gameBoard.foldl (fun accumulator t =>
    accumulator + (t.cubes.filter fun cube => t.y + cube.y == rowIndex).length) 0
  colCount == GRID_WIDTH

/-- `isColFull`: the number of board cubes with absolute column `colIndex`
is at least `GRID_HEIGHT`. -/
def isColFull (gameBoard : List Tetrominos) (colIndex : Int) : Bool :=
  let colCount := gameBoard.foldl (fun accumulator t =>
    accumulator + (t.cubes.filter fun cube => t.x + cube.x == colIndex).length) 0
  decide (colCount ≥ GRID_HEIGHT)

/-- `isGameEnd`: some column in `1..GRID_WIDTH` is full. -/
def isGameEnd (s : State) : Bool :=
  ((List.range GRID_WIDTH).map fun (index : Nat) => (index : Int) + 1).any fun col =>
    isColFull s.gameBoard col

/-- `getFullRows`: the full rows among `1..GRID_HEIGHT`, in ascending order. -/
def getFullRows (s : State) : List Int :=
  ((List.range GRID_HEIGHT).map fun (rowIndex : Nat) => (rowIndex : Int) + 1).filter fun newRowIndex =>
    isRowFull s.gameBoard newRowIndex

/-- `deleteRow(s, fullRows)`: drop every cube whose absolute row is in
`fullRows`, shift each piece down by the number of cleared rows strictly below
its anchor value (`rows > tetromino.y`), and add `100 * |fullRows|` to the
score. -/
def deleteRow (s : State) (fullRows : List Int) : State :=
  let updatedGameBoard := s.gameBoard.map fun t =>
    { t with cubes := t.cubes.filter fun cube => ! fullRows.contains (t.y + cube.y) }
  let movedTetrominos := updatedGameBoard.map fun t =>
    { t with y := t.y + ((fullRows.filter fun rows => decide (rows > t.y)).length : Int) }
  { s with gameBoard := movedTetrominos, score := s.score + 100 * fullRows.length }

/-- `setTetromino`: should the current piece lock (floor contact or the
one-row-below probe)? -/
def setTetromino (s : State) (movement : Action) : Bool :=
  isTouchingFloor s.currentTetrominos || isColliding s movement false

/-- `nextTetromino`: append the current piece to the board and spawn a fresh
piece (the random draw is the explicit `rnd`). -/
def nextTetromino (rnd : Fin 7) (s : State) : State :=
  { s with
    gameBoard := s.gameBoard ++ [s.currentTetrominos]
    currentTetrominos := createTetrominos rnd s.currentTetrominos.id }

/-- The 90° rotation `(x, y) ↦ (-y, x)` applied to one cube. -/
def rotationTransform (cube : Cube) : Cube :=
  ⟨-cube.y, cube.x⟩

/-- The current piece with every cube rotated by `rotationTransform`
(the inline `cubes.map` of the source's `rotateTetrominos`). -/
def rotatedTetrominos (t : Tetrominos) : Tetrominos :=
  { t with cubes := t.cubes.map rotationTransform }

/-- `rotateTetrominos`: skip the square (`"blue"`); otherwise accept the
rotated piece iff the lock probe (`isColliding … false`) fails on it and it is
in border, else keep the state unchanged. -/
def rotateTetrominos (s : State) (rotation : Action) : State :=
  if ! (s.currentTetrominos.color == "blue") then
    let rotatedTetrominosState := { s with currentTetrominos := rotatedTetrominos s.currentTetrominos }
    if ! isColliding rotatedTetrominosState rotation false
        && isInBorder rotatedTetrominosState.currentTetrominos rotation then
      rotatedTetrominosState
    else s
  else s

/-- `moveTetrominos`: a `MoveAction` moves the piece when the destination does
not collide (vertical delta suppressed on floor contact, horizontal delta
suppressed outside the border); any other action is delegated to
`rotateTetrominos`. -/
def moveTetrominos (s : State) (action : Action) : State :=
  match action with
  | Action.move dx dy =>
    if ! isColliding s action true then
      let newY := if isTouchingFloor s.currentTetrominos then 0 else dy
      let newX := if isInBorder s.currentTetrominos action then dx else 0
      { s with currentTetrominos :=
        { s.currentTetrominos with
          x := s.currentTetrominos.x + newX
          y := s.currentTetrominos.y + newY } }
    else s
  | _ => rotateTetrominos s action

/-- `updateState`: restart rebuilds `initialState` keeping the better score;
otherwise a finished game only sets `gameEnd`; otherwise lock-or-move, then
clear the rows that were already full in the pre-step state. -/
def updateState (r0 : Fin 7) (rnd : Fin 7) (s : State) (action : Action) : State :=
  match action with
  | Action.restart =>
    { initialState r0 with
      highScore := if s.score > s.highScore then s.score else s.highScore }
  | _ =>
    if isGameEnd s then
      { s with gameEnd := true }
    else
      let updatedState := if setTetromino s action then nextTetromino rnd s else moveTetrominos s action
      let fullRows := getFullRows s
      if fullRows.length > 0 then deleteRow updatedState fullRows else updatedState

/-- The absolute grid cells occupied by the locked board pieces. -/
def boardCells (b : List Tetrominos) : List (Int × Int) :=
  b.flatMap fun t => t.cubes.map fun cube => (t.x + cube.x, t.y + cube.y)

/-- Reachability: states produced from `initialState r0` by any sequence of
`updateState` transitions (with arbitrary random draws). -/
inductive Reachable (r0 : Fin 7) : State → Prop where
  | init : Reachable r0 (initialState r0)
  | step (s : State) (rnd : Fin 7) (a : Action) :
      Reachable r0 s → Reachable r0 (updateState r0 rnd s a)

/-- Fold a list of (action, random draw) pairs through `updateState`. -/
def runActions (r0 : Fin 7) (s : State) (l : List (Action × Fin 7)) : State :=
  l.foldl (fun st p => updateState r0 p.2 st p.1) s

/-- A concrete play: drop the initial yellow bar (initial draw 5) to the floor
and lock it, spawn the white piece (draw 1), rotate it, move it two columns
left, drop it to row 19, rotate it again (the second rotation passes the
one-row-below probe yet lands a cube on the already-occupied cell `(5, 20)`),
and tick once more so the overlapping piece locks. -/
def c1Actions : List (Action × Fin 7) :=
  List.replicate 20 (Action.move 0 1, (0 : Fin 7)) ++
  [(Action.move 0 1, 1)] ++
  [(Action.rotate, 0)] ++
  List.replicate 2 (Action.move (-1) 0, (0 : Fin 7)) ++
  List.replicate 19 (Action.move 0 1, (0 : Fin 7)) ++
  [(Action.rotate, 0), (Action.move 0 1, 0)]

/-- The state reached by `c1Actions` from the initial state with draw 5. -/
def c1State : State := runActions 5 (initialState 5) c1Actions

/-- A state whose white current piece, once rotated, lands exactly on the
single locked board cube `(6, 8)` while the cells one row below every rotated
cube are free: the rotation acceptance probe looks only one row below. -/
def c2State : State :=
  { gameEnd := false
    gameBoard := [{ id := 1, cubes := [⟨0, 0⟩], color := "red", x := 6, y := 8 }]
    currentTetrominos :=
      { id := 2, cubes := [⟨0, 0⟩, ⟨0, -1⟩, ⟨-1, -1⟩, ⟨-2, -1⟩], color := "white", x := 5, y := 10 }
    score := 0
    highScore := 0 }

/-- A state with a full column (20 locked cubes in column 5), so
`isGameEnd` holds. -/
def endedState : State :=
  { gameEnd := false
    gameBoard := [{ id := 1
                    cubes := (List.range GRID_HEIGHT).map fun i => ⟨0, (i : Int)⟩
                    color := "red", x := 5, y := 1 }]
    currentTetrominos := createTetrominos 0 1
    score := 7
    highScore := 3 }

/-! Frame lemmas: which fields each operation leaves untouched. -/

theorem rotateTetrominos_frame (s : State) (r : Action) :
    (rotateTetrominos s r).gameBoard = s.gameBoard ∧
    (rotateTetrominos s r).score = s.score ∧
    (rotateTetrominos s r).highScore = s.highScore ∧
    (rotateTetrominos s r).gameEnd = s.gameEnd := by
  unfold rotateTetrominos
  dsimp only
  repeat' split
  all_goals exact ⟨rfl, rfl, rfl, rfl⟩

theorem moveTetrominos_frame (s : State) (a : Action) :
    (moveTetrominos s a).gameBoard = s.gameBoard ∧
    (moveTetrominos s a).score = s.score ∧
    (moveTetrominos s a).highScore = s.highScore ∧
    (moveTetrominos s a).gameEnd = s.gameEnd := by
  cases a with
  | move dx dy =>
    unfold moveTetrominos
    dsimp only
    repeat' split
    all_goals exact ⟨rfl, rfl, rfl, rfl⟩
  | rotate => exact rotateTetrominos_frame s Action.rotate
  | restart => exact rotateTetrominos_frame s Action.restart

theorem nextTetromino_frame (rnd : Fin 7) (s : State) :
    (nextTetromino rnd s).score = s.score ∧
    (nextTetromino rnd s).highScore = s.highScore ∧
    (nextTetromino rnd s).gameEnd = s.gameEnd :=
  ⟨rfl, rfl, rfl⟩

theorem deleteRow_frame (s : State) (rows : List Int) :
    (deleteRow s rows).currentTetrominos = s.currentTetrominos ∧
    (deleteRow s rows).highScore = s.highScore ∧
    (deleteRow s rows).gameEnd = s.gameEnd :=
  ⟨rfl, rfl, rfl⟩

/-- The live branch of `updateState` spelled out: lock-or-move, then clear the
rows that were full in the pre-step board. -/
theorem updateState_live (r0 rnd : Fin 7) (s : State) (a : Action)
    (ha : a ≠ Action.restart) (h : isGameEnd s = false) :
    updateState r0 rnd s a =
      if (getFullRows s).length > 0 then
        deleteRow (if setTetromino s a then nextTetromino rnd s else moveTetrominos s a)
          (getFullRows s)
      else
        if setTetromino s a then nextTetromino rnd s else moveTetrominos s a := by
  cases a with
  | restart => exact absurd rfl ha
  | move dx dy => simp [updateState, h]
  | rotate => simp [updateState, h]

/-- Any non-Restart transition leaves `highScore` unchanged. -/
theorem updateState_highScore_nonrestart (r0 rnd : Fin 7) (s : State) (a : Action)
    (ha : a ≠ Action.restart) :
    (updateState r0 rnd s a).highScore = s.highScore := by
  by_cases hend : isGameEnd s = true
  · have : updateState r0 rnd s a = { s with gameEnd := true } := by
      cases a with
      | restart => exact absurd rfl ha
      | move dx dy => simp [updateState, hend]
      | rotate => simp [updateState, hend]
    rw [this]
  · rw [updateState_live r0 rnd s a ha (by simpa using hend)]
    split
    · rw [(deleteRow_frame _ _).2.1]
      split
      · exact (nextTetromino_frame rnd s).2.1
      · exact (moveTetrominos_frame s a).2.2.1
    · split
      · exact (nextTetromino_frame rnd s).2.1
      · exact (moveTetrominos_frame s a).2.2.1

/-- `C3`: once `isGameEnd` holds, any non-Restart transition only sets
`gameEnd := true` and leaves every other field unchanged; the resulting state
still satisfies `isGameEnd`, so the gameplay fields stay frozen for all
subsequent non-Restart actions. -/
theorem C3_gameOver_frozen (r0 rnd : Fin 7) (s : State) (a : Action)
    (ha : a ≠ Action.restart) (h : isGameEnd s = true) :
    updateState r0 rnd s a = { s with gameEnd := true } ∧
    isGameEnd (updateState r0 rnd s a) = true := by
  have heq : updateState r0 rnd s a = { s with gameEnd := true } := by
    cases a with
    | restart => exact absurd rfl ha
    | move dx dy => simp [updateState, h]
    | rotate => simp [updateState, h]
  refine ⟨heq, ?_⟩
  rw [heq]
  show isGameEnd { s with gameEnd := true } = true
  have : isGameEnd { s with gameEnd := true } = isGameEnd s := rfl
  rw [this, h]

/-- Witness for `C3_gameOver_frozen` at a concrete ended state. -/
theorem C3_gameOver_frozen_witness :
    ((Action.move 0 1 ≠ Action.restart) ∧ isGameEnd endedState = true) ∧
    (updateState 5 0 endedState (Action.move 0 1) = { endedState with gameEnd := true } ∧
     isGameEnd (updateState 5 0 endedState (Action.move 0 1)) = true) :=
  ⟨⟨by decide, by decide⟩,
   C3_gameOver_frozen 5 0 endedState (Action.move 0 1) (by decide) (by decide)⟩

/-- `C4`: Restart yields `initialState` with `highScore := max score highScore`
(in particular score 0, empty board, `gameEnd = false`), and `highScore` never
decreases across any transition. -/
theorem C4_restart_resets_and_highScore_monotone (r0 rnd : Fin 7) (s : State) :
    updateState r0 rnd s Action.restart =
      { initialState r0 with highScore := max s.score s.highScore } ∧
    (updateState r0 rnd s Action.restart).score = 0 ∧
    (updateState r0 rnd s Action.restart).gameBoard = [] ∧
    (updateState r0 rnd s Action.restart).gameEnd = false ∧
    ∀ (a : Action) (rnd' : Fin 7), s.highScore ≤ (updateState r0 rnd' s a).highScore := by
  have hmax : (if s.score > s.highScore then s.score else s.highScore) = max s.score s.highScore := by
    split <;> omega
  refine ⟨by simp [updateState, hmax], rfl, rfl, rfl, ?_⟩
  intro a rnd'
  cases a with
  | restart =>
    show s.highScore ≤ (if s.score > s.highScore then s.score else s.highScore)
    split <;> omega
  | move dx dy =>
    rw [updateState_highScore_nonrestart r0 rnd' s _ (by simp)]
  | rotate =>
    rw [updateState_highScore_nonrestart r0 rnd' s _ (by simp)]

/-- `C5`: for a live state and a non-Restart action, the transition is
lock-or-move followed by clearing the rows that were full in the pre-step
board `s.gameBoard`; `deleteRow` runs exactly when that pre-step list is
non-empty. -/
theorem C5_rowClear_uses_prestep_board (r0 rnd : Fin 7) (s : State) (a : Action)
    (ha : a ≠ Action.restart) (h : isGameEnd s = false) :
    updateState r0 rnd s a =
      if (getFullRows s).length > 0 then
        deleteRow (if setTetromino s a then nextTetromino rnd s else moveTetrominos s a)
          (getFullRows s)
      else
        if setTetromino s a then nextTetromino rnd s else moveTetrominos s a :=
  updateState_live r0 rnd s a ha h

/-- Witness for `C5_rowClear_uses_prestep_board` at the initial state. -/
theorem C5_rowClear_uses_prestep_board_witness :
    ((Action.move 0 1 ≠ Action.restart) ∧ isGameEnd (initialState 5) = false) ∧
    updateState 5 0 (initialState 5) (Action.move 0 1) =
      (if (getFullRows (initialState 5)).length > 0 then
        deleteRow
          (if setTetromino (initialState 5) (Action.move 0 1) then nextTetromino 0 (initialState 5)
           else moveTetrominos (initialState 5) (Action.move 0 1))
          (getFullRows (initialState 5))
      else
        if setTetromino (initialState 5) (Action.move 0 1) then nextTetromino 0 (initialState 5)
        else moveTetrominos (initialState 5) (Action.move 0 1)) :=
  ⟨⟨by decide, by decide⟩,
   C5_rowClear_uses_prestep_board 5 0 (initialState 5) (Action.move 0 1) (by decide) (by decide)⟩

/-- `C10`: Restart is deterministic (independent of the per-step random draw),
idempotent, and consumes no randomness: the piece after every Restart is the
single module-load piece `createTetrominos r0 1`, whose id is 2. -/
theorem C10_restart_idempotent_deterministic (r0 r r' : Fin 7) (s : State) :
    updateState r0 r' (updateState r0 r s Action.restart) Action.restart =
      updateState r0 r s Action.restart ∧
    updateState r0 r s Action.restart = updateState r0 r' s Action.restart ∧
    (updateState r0 r s Action.restart).currentTetrominos = createTetrominos r0 1 ∧
    (createTetrominos r0 1).id = 2 := by
  refine ⟨?_, rfl, rfl, rfl⟩
  show ({ initialState r0 with
      highScore := if (updateState r0 r s Action.restart).score > (updateState r0 r s Action.restart).highScore
        then (updateState r0 r s Action.restart).score
        else (updateState r0 r s Action.restart).highScore } : State) = _
  have hsc : (updateState r0 r s Action.restart).score = 0 := rfl
  rw [hsc, if_neg (by omega)]
  rfl

/-- Folding any action list through `updateState` preserves reachability. -/
theorem reachable_runActions (r0 : Fin 7) (l : List (Action × Fin 7)) (s : State)
    (h : Reachable r0 s) : Reachable r0 (runActions r0 s l) := by
  induction l generalizing s with
  | nil => exact h
  | cons p t ih => exact ih _ (Reachable.step s p.2 p.1 h)

set_option maxRecDepth 100000 in
/-- `C1`: the no-overlap board invariant FAILS on the code.  The state reached
from the initial state by the concrete 45-action play `c1Actions` has the
locked cell `(5, 20)` twice on the board (once from the yellow bar, once from
the rotated white piece, which was allowed to rotate onto an occupied cell
because the rotation check probes one row below instead of the cells
themselves, and then locked there by floor contact). -/
theorem C1_board_overlap_violated :
    Reachable 5 c1State ∧ ¬ (boardCells c1State.gameBoard).Nodup :=
  ⟨reachable_runActions 5 c1Actions (initialState 5) Reachable.init, by decide⟩

/-- `C8`: the rotation transform has order 4 on cube sequences, and
`rotateTetrominos` is the identity on any state whose current piece is the
blue square. -/
theorem C8_rotation_order_four :
    (∀ cs : List Cube,
      (((cs.map rotationTransform).map rotationTransform).map rotationTransform).map
        rotationTransform = cs) ∧
    (∀ (s : State) (r : Action), s.currentTetrominos.color = "blue" →
      rotateTetrominos s r = s) := by
  constructor
  · intro cs
    induction cs with
    | nil => rfl
    | cons c t ih =>
      cases c
      simp only [List.map_cons, rotationTransform, neg_neg, ih]
  · intro s r h
    simp [rotateTetrominos, h]

/-- Witness for `C8_rotation_order_four`: a concrete cube list and the
concrete blue-square initial state (draw 4). -/
theorem C8_rotation_order_four_witness :
    ((((([(⟨1, 2⟩ : Cube)].map rotationTransform).map rotationTransform).map
        rotationTransform).map rotationTransform) = [⟨1, 2⟩]) ∧
    (initialState 4).currentTetrominos.color = "blue" ∧
    rotateTetrominos (initialState 4) Action.rotate = initialState 4 :=
  ⟨C8_rotation_order_four.1 [⟨1, 2⟩], by decide,
   C8_rotation_order_four.2 (initialState 4) Action.rotate (by decide)⟩

/-- `C9`: in a live state whose piece is neither touching the floor nor
triggering the one-row-below lock probe, with no full rows on the board, a
Move or Rotate action can change only `currentTetrominos`: board, score,
high score and the game-end flag are returned unchanged. -/
theorem C9_move_rotate_frame (r0 rnd : Fin 7) (s : State) (a : Action)
    (ha : a ≠ Action.restart)
    (hend : isGameEnd s = false)
    (hfloor : isTouchingFloor s.currentTetrominos = false)
    (hprobe : isColliding s a false = false)
    (hrows : getFullRows s = []) :
    (updateState r0 rnd s a).gameBoard = s.gameBoard ∧
    (updateState r0 rnd s a).score = s.score ∧
    (updateState r0 rnd s a).highScore = s.highScore ∧
    (updateState r0 rnd s a).gameEnd = s.gameEnd := by
  have hset : setTetromino s a = false := by
    simp [setTetromino, hfloor, hprobe]
  rw [updateState_live r0 rnd s a ha hend, hrows, hset]
  simp only [List.length_nil, gt_iff_lt, Nat.lt_irrefl, if_false, Bool.false_eq_true]
  exact moveTetrominos_frame s a

/-- Witness for `C9_move_rotate_frame` at the initial state with a
rightward move. -/
theorem C9_move_rotate_frame_witness :
    ((Action.move 1 0 ≠ Action.restart) ∧
     isGameEnd (initialState 5) = false ∧
     isTouchingFloor (initialState 5).currentTetrominos = false ∧
     isColliding (initialState 5) (Action.move 1 0) false = false ∧
     getFullRows (initialState 5) = []) ∧
    ((updateState 5 0 (initialState 5) (Action.move 1 0)).gameBoard = (initialState 5).gameBoard ∧
     (updateState 5 0 (initialState 5) (Action.move 1 0)).score = (initialState 5).score ∧
     (updateState 5 0 (initialState 5) (Action.move 1 0)).highScore = (initialState 5).highScore ∧
     (updateState 5 0 (initialState 5) (Action.move 1 0)).gameEnd = (initialState 5).gameEnd) :=
  ⟨⟨by decide, by decide, by decide, by decide, by decide⟩,
   C9_move_rotate_frame 5 0 (initialState 5) (Action.move 1 0)
     (by decide) (by decide) (by decide) (by decide) (by decide)⟩

/-- A fold adding `f` over a list equals the initial value plus the sum of the
mapped list. -/
theorem foldl_add_map_sum {α : Type} (l : List α) (f : α → Nat) (n : Nat) :
    l.foldl (fun acc t => acc + f t) n = n + (l.map f).sum := by
  induction l generalizing n with
  | nil => simp
  | cons hd tl ih => simp [ih, Nat.add_assoc]

/-- Counting board cells satisfying `p` decomposes piece by piece. -/
theorem countP_boardCells (b : List Tetrominos) (p : Int × Int → Bool) :
    (boardCells b).countP p =
      (b.map fun t => t.cubes.countP fun cube => p (t.x + cube.x, t.y + cube.y)).sum := by
  induction b with
  | nil => rfl
  | cons hd tl ih =>
    show ((hd.cubes.map _) ++ boardCells tl).countP p = _
    rw [List.countP_append, ih, List.countP_map]
    rfl

/-- `C7`: `isRowFull` iff the count of locked cubes in that absolute row is
exactly `GRID_WIDTH`; `isColFull` iff the count in that absolute column is at
least `GRID_HEIGHT`; `isGameEnd` iff some column in `[1, GRID_WIDTH]` is
full. -/
theorem C7_fullness_predicates (b : List Tetrominos) (r c : Int) (s : State) :
    (isRowFull b r = true ↔ (boardCells b).countP (fun cell => cell.2 == r) = GRID_WIDTH) ∧
    (isColFull b c = true ↔ GRID_HEIGHT ≤ (boardCells b).countP (fun cell => cell.1 == c)) ∧
    (isGameEnd s = true ↔ ∃ col : Int, 1 ≤ col ∧ col ≤ (GRID_WIDTH : Int) ∧
      isColFull s.gameBoard col = true) := by
  refine ⟨?_, ?_, ?_⟩
  · unfold isRowFull
    rw [countP_boardCells]
    simp only [foldl_add_map_sum, Nat.zero_add, beq_iff_eq, List.countP_eq_length_filter]
  · unfold isColFull
    rw [countP_boardCells]
    simp only [foldl_add_map_sum, Nat.zero_add, decide_eq_true_eq, ge_iff_le,
      List.countP_eq_length_filter]
  · unfold isGameEnd
    rw [List.any_eq_true]
    have hgw : ((GRID_WIDTH : Nat) : Int) = 10 := rfl
    constructor
    · rintro ⟨col, hmem, hfull⟩
      rw [List.mem_map] at hmem
      obtain ⟨i, hir, hcol⟩ := hmem
      rw [List.mem_range] at hir
      have hi10 : i < 10 := hir
      refine ⟨col, ?_, ?_, hfull⟩
      · rw [← hcol]; omega
      · rw [← hcol, hgw]; show (i : Int) + 1 ≤ 10; omega
    · rintro ⟨col, h1, h2, hfull⟩
      refine ⟨col, ?_, hfull⟩
      rw [List.mem_map]
      rw [hgw] at h2
      refine ⟨(col - 1).toNat, ?_, ?_⟩
      · rw [List.mem_range]
        show (col - 1).toNat < GRID_WIDTH
        have h10 : (col - 1).toNat < 10 := by omega
        exact h10
      · show ((col - 1).toNat : Int) + 1 = col
        omega

/-- `C6`: `deleteRow` drops exactly the cubes whose absolute row is in `rows`,
shifts each piece's anchor down by the number of cleared rows strictly greater
than its anchor, keeps the board length (emptied pieces are not compacted),
adds `100 * |rows|` to the score, and leaves the current piece, high score and
end flag unchanged. -/
theorem C6_deleteRow_spec (s : State) (rows : List Int) :
    (deleteRow s rows).gameBoard = s.gameBoard.map (fun t =>
      { t with
        cubes := t.cubes.filter fun cube => decide (¬ (t.y + cube.y) ∈ rows)
        y := t.y + ((rows.filter fun r => decide (r > t.y)).length : Int) }) ∧
    (deleteRow s rows).gameBoard.length = s.gameBoard.length ∧
    (deleteRow s rows).score = s.score + 100 * rows.length ∧
    (deleteRow s rows).currentTetrominos = s.currentTetrominos ∧
    (deleteRow s rows).highScore = s.highScore ∧
    (deleteRow s rows).gameEnd = s.gameEnd := by
  refine ⟨?_, by simp [deleteRow], rfl, rfl, rfl, rfl⟩
  show (s.gameBoard.map _).map _ = _
  rw [List.map_map]
  apply List.map_congr_left
  intro t _
  have hcubes : (t.cubes.filter fun cube => ! rows.contains (t.y + cube.y)) =
      t.cubes.filter fun cube => decide (¬ (t.y + cube.y) ∈ rows) := by
    apply List.filter_congr
    intro cube _
    simp
  simp only [Function.comp]
  rw [hcubes]

/-- The lock probe (`isColliding … false`) hits exactly when some current cube
has a locked board cube in the cell one row below it. -/
theorem isColliding_probe_iff (s : State) (m : Action) :
    isColliding s m false = true ↔ ∃ cube ∈ s.currentTetrominos.cubes,
      (s.currentTetrominos.x + cube.x, s.currentTetrominos.y + cube.y + 1) ∈
        boardCells s.gameBoard := by
  simp [isColliding, boardCells, List.any_eq_true, List.mem_flatMap, List.mem_map,
    Prod.ext_iff]

/-- `C2` as stated is FALSE at `c2State`: the rotated white piece coincides
with the locked board cube `(6, 8)` at one of its own cells (and is in
border), so per the claim the rotation must be discarded; the code
nevertheless installs the rotated piece, because its acceptance check probes
one row below each rotated cube instead of the cubes' own cells. -/
theorem C2_rotation_counterexample :
    c2State.currentTetrominos.color ≠ "blue" ∧
    ((rotatedTetrominos c2State.currentTetrominos).cubes.any fun cube =>
      (boardCells c2State.gameBoard).contains
        ((rotatedTetrominos c2State.currentTetrominos).x + cube.x,
         (rotatedTetrominos c2State.currentTetrominos).y + cube.y)) = true ∧
    isInBorder (rotatedTetrominos c2State.currentTetrominos) Action.rotate = true ∧
    (rotateTetrominos c2State Action.rotate).currentTetrominos =
      rotatedTetrominos c2State.currentTetrominos ∧
    rotateTetrominos c2State Action.rotate ≠ c2State :=
  ⟨by decide, by decide, by decide, by decide, by decide⟩

/-- `C2` amended: for a non-square piece, the rotated form becomes the current
piece exactly when no rotated cube has a locked board cube in the cell one row
below it (the same lock probe used for stacking) and the rotated form is in
border; otherwise the state is returned unchanged (no kick adjustment). -/
theorem C2_rotation_amended (s : State) (h : s.currentTetrominos.color ≠ "blue") :
    rotateTetrominos s Action.rotate =
      if (∀ cube ∈ (rotatedTetrominos s.currentTetrominos).cubes,
            ((rotatedTetrominos s.currentTetrominos).x + cube.x,
             (rotatedTetrominos s.currentTetrominos).y + cube.y + 1) ∉ boardCells s.gameBoard) ∧
          isInBorder (rotatedTetrominos s.currentTetrominos) Action.rotate = true
      then { s with currentTetrominos := rotatedTetrominos s.currentTetrominos }
      else s := by
  have hb : (s.currentTetrominos.color == "blue") = false := by
    simpa using h
  unfold rotateTetrominos
  rw [hb]
  dsimp only
  rw [if_pos (show (!false) = true from rfl)]
  split_ifs with h1 h2 h3
  · rfl
  · exfalso
    rw [Bool.and_eq_true, Bool.not_eq_true'] at h1
    apply h2
    constructor
    · intro cube hcube hmem
      have hcol : isColliding
          { s with currentTetrominos := rotatedTetrominos s.currentTetrominos }
          Action.rotate false = true :=
        (isColliding_probe_iff _ _).mpr ⟨cube, hcube, hmem⟩
      rw [h1.1] at hcol
      exact Bool.false_ne_true hcol
    · exact h1.2
  · exfalso
    apply h1
    rw [Bool.and_eq_true, Bool.not_eq_true']
    refine ⟨?_, h3.2⟩
    by_contra hcol
    have hct : isColliding
        { s with currentTetrominos := rotatedTetrominos s.currentTetrominos }
        Action.rotate false = true := by
      simpa using hcol
    obtain ⟨cube, hcube, hmem⟩ := (isColliding_probe_iff _ _).mp hct
    exact h3.1 cube hcube hmem
  · rfl

/-- Witness for `C2_rotation_amended` at the concrete state `c2State`. -/
theorem C2_rotation_amended_witness :
    c2State.currentTetrominos.color ≠ "blue" ∧
    rotateTetrominos c2State Action.rotate =
      (if (∀ cube ∈ (rotatedTetrominos c2State.currentTetrominos).cubes,
            ((rotatedTetrominos c2State.currentTetrominos).x + cube.x,
             (rotatedTetrominos c2State.currentTetrominos).y + cube.y + 1) ∉
              boardCells c2State.gameBoard) ∧
          isInBorder (rotatedTetrominos c2State.currentTetrominos) Action.rotate = true
      then { c2State with currentTetrominos := rotatedTetrominos c2State.currentTetrominos }
      else c2State) :=
  ⟨by decide, C2_rotation_amended c2State (by decide)⟩

end Tetris
